import Mathlib

set_option autoImplicit false

namespace Lares

/-! Shallow embedding of the lares RSS service (src/cli.rs and its data
model). Pure data is embedded as Lean structures; the relational store is a
`Store` value threaded explicitly through each operation; the network is an
oracle `String → FetchOutcome`. Operations visible in src/cli.rs are
translated from that source; store/crawler internals that live in modules
not present under src/ are modelled from the spec and marked as such. -/

/-- A stored feed row: store-assigned `id`, display `title`, unique
subscription `url`, human-facing `link`, and last-crawl bookkeeping. -/
structure Feed where
  id : Nat
  title : String
  url : String
  link : String
  lastCrawl : Nat
deriving Repr, DecidableEq

/-- A stored group row: store-assigned `id` and unique `title`. -/
structure Group where
  id : Nat
  title : String
deriving Repr, DecidableEq

/-- A stored entry row: belongs to one feed, dedup key `externalId`. -/
structure Entry where
  feedId : Nat
  externalId : String
  title : String
  content : String
  published : Nat
deriving Repr, DecidableEq

/-- The relational store: feeds, groups, the feed-to-group association
(pairs `(feedId, groupId)`), entries, and the next fresh feed id. -/
structure Store where
  feeds : List Feed
  groups : List Group
  feedGroups : List (Nat × Nat)
  entries : List Entry
  nextFeedId : Nat
deriving Repr, DecidableEq

/-- A parsed feed entry as exposed by the parse pipeline: optional guid,
its own link, title, body and timestamp. -/
structure RawEntry where
  guid : Option String
  link : String
  title : String
  content : String
  published : Nat
deriving Repr, DecidableEq

/-- A parsed feed document as exposed by the parse pipeline (the fields of
`feed_rs::model::Feed` that src/cli.rs reads): optional title, candidate
links, ordered entries. -/
structure RawFeed where
  title : Option String
  links : List String
  entries : List RawEntry
deriving Repr, DecidableEq

/-- Outcome of fetching and parsing one URL: transport failure, parse
failure, or a parsed document. -/
inductive FetchOutcome where
  | fetchError
  | parseError
  | doc (raw : RawFeed)
deriving Repr, DecidableEq

/-- Modelled from the spec: Store `get-by-unique-key` for Feed (model.rs is
not under src/); returns the feed with the given subscription URL, or a
not-found signal. -/
def Feed.get_by_url (s : Store) (url : String) : Option Feed :=
  s.feeds.find? (fun f => f.url == url)

/-- Modelled from the spec: Store `get-by-id` for Feed (model.rs is not
under src/). -/
def Feed.get (s : Store) (id : Nat) : Option Feed :=
  s.feeds.find? (fun f => f.id == id)

/-- Modelled from the spec: Store `create` for Feed (model.rs is not under
src/); assigns a fresh id and appends the row. -/
def Feed.insert (s : Store) (title url link : String) : Feed × Store :=
  let f : Feed := ⟨s.nextFeedId, title, url, link, 0⟩
  (f, { s with feeds := s.feeds ++ [f], nextFeedId := s.nextFeedId + 1 })

/-- Modelled from the spec: Store `delete` for Feed (model.rs is not under
src/); removes only the feed row itself — per the source TODO noted in the
spec, related entries and associations are not deleted. -/
def Feed.deleteRow (s : Store) (f : Feed) : Store :=
  { s with feeds := s.feeds.filter (fun x => x.id != f.id) }

/-- Modelled from the spec: Store `get-by-unique-key` for Group (model.rs
is not under src/). -/
def Group.get_by_name (s : Store) (name : String) : Option Group :=
  s.groups.find? (fun g => g.title == name)

/-- Modelled from the spec: association `add(feed, group)` (model.rs is not
under src/); idempotent-safe per the spec — adding an already-present link
must not create a duplicate. -/
def Group.add_feed (s : Store) (g : Group) (f : Feed) : Store :=
  if (f.id, g.id) ∈ s.feedGroups then s
  else { s with feedGroups := s.feedGroups ++ [(f.id, g.id)] }

/-- Modelled from the spec: association `list-by-group` (model.rs is not
under src/); the feed ids currently associated with the group. -/
def FeedGroup.get_by_group (s : Store) (gid : Nat) : List Nat :=
  (s.feedGroups.filter (fun p => p.2 == gid)).map (fun p => p.1)

/-- Modelled from the spec: association `delete-by-group` (model.rs is not
under src/); removes every link of the group. -/
def FeedGroup.delete_by_group (s : Store) (gid : Nat) : Store :=
  { s with feedGroups := s.feedGroups.filter (fun p => p.2 != gid) }

/-- Modelled from the spec: Store `delete` for Group (model.rs is not under
src/); removes only the group row. -/
def Group.delete (s : Store) (g : Group) : Store :=
  { s with groups := s.groups.filter (fun x => x.id != g.id) }

/-- Result of the add-feed CLI operation. -/
inductive AddResult where
  | ok (feedId : Nat)
  | errAlreadyExists
  | errFetch
  | errParse
  | errNoTitle
  | errGroupNotFound
deriving Repr, DecidableEq

/-- Full outcome of the add-feed CLI operation: the result, the final
store, and how many network fetches were performed. -/
structure AddOutcome where
  result : AddResult
  store : Store
  fetches : Nat
deriving Repr, DecidableEq

/-- Embedding of `FeedCommand::add` (src/cli.rs lines 46-92): look the URL
up first and fail if present, then fetch and parse, require a title, choose
the first parsed link different from the subscription URL (falling back to
the URL), insert the feed, and finally — only after the insert — resolve
the optional group and link the feed to it. -/
def FeedCommand.add (s : Store) (net : String → FetchOutcome) (url : String)
    (group : Option String) : AddOutcome :=
  match Feed.get_by_url s url with
  | some _ => ⟨.errAlreadyExists, s, 0⟩
  | none =>
    match net url with
    | .fetchError => ⟨.errFetch, s, 1⟩
    | .parseError => ⟨.errParse, s, 1⟩
    | .doc raw =>
      match raw.title with
      | none => ⟨.errNoTitle, s, 1⟩
      | some title =>
        let link := ((raw.links.filter (fun l => l != url)).head?).getD url
        let fs := Feed.insert s title url link
        match group with
        | none => ⟨.ok fs.1.id, fs.2, 1⟩
        | some gname =>
          match Group.get_by_name fs.2 gname with
          | none => ⟨.errGroupNotFound, fs.2, 1⟩
          | some g => ⟨.ok fs.1.id, Group.add_feed fs.2 g fs.1, 1⟩

/-- Result of a lookup-then-mutate CLI operation. -/
inductive OpResult where
  | ok
  | errNotFound
deriving Repr, DecidableEq

/-- Embedding of `FeedCommand::delete` (src/cli.rs lines 94-101): look the
feed up by id and delete it; the source TODO `delete related items` is not
implemented, so entries and associations are left in place. -/
def FeedCommand.delete (s : Store) (id : Nat) : OpResult × Store :=
  match Feed.get s id with
  | none => (.errNotFound, s)
  | some f => (.ok, Feed.deleteRow s f)

/-- Embedding of `GroupCommand::add_feed` (src/cli.rs lines 169-178): look
the group up by name and the feed by id, then add the association. -/
def GroupCommand.add_feed (s : Store) (feed_id : Nat) (gname : String) :
    OpResult × Store :=
  match Group.get_by_name s gname with
  | none => (.errNotFound, s)
  | some g =>
    match Feed.get s feed_id with
    | none => (.errNotFound, s)
    | some f => (.ok, Group.add_feed s g f)

/-- Full outcome of the delete-group CLI operation, recording whether the
non-empty-group warning was printed. -/
structure GroupDeleteOutcome where
  result : OpResult
  store : Store
  warned : Bool
deriving Repr, DecidableEq

/-- Embedding of `GroupCommand::delete` (src/cli.rs lines 180-193): look
the group up by name, warn (without blocking) when it still has feeds,
delete its associations, then delete the group row. -/
def GroupCommand.delete (s : Store) (gname : String) : GroupDeleteOutcome :=
  match Group.get_by_name s gname with
  | none => ⟨.errNotFound, s, false⟩
  | some g =>
    let fids := FeedGroup.get_by_group s g.id
    let warned := fids.length != 0
    let s1 := FeedGroup.delete_by_group s g.id
    let s2 := Group.delete s1 g
    ⟨.ok, s2, warned⟩

/-- Modelled from the spec: an entry's external identity (crawler internals
are not under src/) — the guid if present, else the entry's own link. -/
def RawEntry.key (r : RawEntry) : String := r.guid.getD r.link

/-- Modelled from the spec: the Entry row stored for a parsed entry. -/
def mkEntry (fid : Nat) (r : RawEntry) : Entry :=
  ⟨fid, r.key, r.title, r.content, r.published⟩

/-- Whether an entry with the given `(feedId, externalId)` pair is already
stored. -/
def entryStored (s : Store) (fid : Nat) (key : String) : Bool :=
  s.entries.any (fun e => e.feedId == fid && e.externalId == key)

/-- Modelled from the spec: the dedup-and-persist step of the crawl
pipeline (crawler internals are not under src/) — for each parsed entry in
order, skip it when its `(feedId, externalId)` pair is already stored,
otherwise append it; returns the new store and the count of new entries. -/
def insertNewEntries (s : Store) (fid : Nat) : List RawEntry → Store × Nat
  | [] => (s, 0)
  | r :: rs =>
    if entryStored s fid r.key then insertNewEntries s fid rs
    else
      let s1 := { s with entries := s.entries ++ [mkEntry fid r] }
      let rec2 := insertNewEntries s1 fid rs
      (rec2.1, rec2.2 + 1)

/-- Modelled from the spec: update a feed's last-crawl bookkeeping to the
time of the current attempt. -/
def touchFeed (s : Store) (fid now : Nat) : Store :=
  { s with
    feeds := s.feeds.map
      (fun x => if x.id == fid then { x with lastCrawl := now } else x) }

/-- Status reported by one crawl-pipeline invocation. -/
inductive CrawlStatus where
  | ok
  | fetchFailed
  | parseFailed
deriving Repr, DecidableEq

/-- Full outcome of one crawl-pipeline invocation. -/
structure CrawlOutcome where
  store : Store
  newCount : Nat
  status : CrawlStatus
deriving Repr, DecidableEq

/-- Modelled from the spec: the crawl pipeline for one feed (crawler
internals are not under src/) — on fetch or parse failure store no entries
and still update the bookkeeping; on success persist the new entries and
update the bookkeeping. -/
def crawlFeed (s : Store) (now : Nat) (f : Feed) (res : FetchOutcome) :
    CrawlOutcome :=
  match res with
  | .fetchError => ⟨touchFeed s f.id now, 0, .fetchFailed⟩
  | .parseError => ⟨touchFeed s f.id now, 0, .parseFailed⟩
  | .doc raw =>
    let sn := insertNewEntries s f.id raw.entries
    ⟨touchFeed sn.1 f.id now, sn.2, .ok⟩

/-- Modelled from the spec: a feed is due when the elapsed time since its
last crawl attempt meets or exceeds the polling interval. -/
def isDue (now interval : Nat) (f : Feed) : Bool :=
  interval ≤ now - f.lastCrawl

/-- Modelled from the spec: one scheduling pass of the run-loop (crawler
internals are not under src/) — load the feed set, select the due feeds,
and invoke the crawl pipeline for each of them. -/
def schedulePass (s : Store) (now interval : Nat)
    (net : String → FetchOutcome) : Store :=
  (s.feeds.filter (isDue now interval)).foldl
    (fun acc f => (crawlFeed acc now f (net f.url)).store) s

/-- Embedding of `Options::server` (src/cli.rs lines 259-281): the web
listener and the crawler run-loop are joined, so the operation has both
results in hand before returning; `(web?, crawl?)` then surfaces the web
error first, else the crawl error, else success. -/
def Options.server {ε : Type} (web crawl : Except ε Unit) : Except ε Unit :=
  match web with
  | .error e => .error e
  | .ok _ =>
    match crawl with
    | .error e => .error e
    | .ok _ => .ok ()

/-- Concrete fixture feed used by witnesses. -/
def wFeed : Feed := ⟨1, "A", "a", "a", 0⟩

/-- Concrete fixture store holding one feed, used by witnesses. -/
def wStore : Store := ⟨[wFeed], [], [], [], 2⟩

/-- Concrete fixture document used by witnesses: a title and two links,
the first equal to the subscription URL `b`. -/
def wRaw : RawFeed := ⟨some "T", ["b", "c"], []⟩

/-- Concrete fixture document with no title, used by witnesses. -/
def wRawNoTitle : RawFeed := ⟨none, ["c"], []⟩

/-- Concrete fixture group used by witnesses. -/
def wGroup : Group := ⟨1, "g"⟩

/-- Concrete fixture store with one feed, one group and one association,
used by witnesses. -/
def wStoreG : Store := ⟨[wFeed], [wGroup], [(1, 1)], [⟨1, "k", "t", "c", 0⟩], 2⟩

/-- Concrete fixture store with one feed and one group but no association,
used by witnesses. -/
def wStoreNoLink : Store := ⟨[wFeed], [wGroup], [], [], 2⟩

/-- Second concrete fixture feed (url `b`), used by the scheduling
witness. -/
def wFeedB : Feed := ⟨2, "B", "b", "b", 0⟩

/-- Concrete fixture store with two feeds and one stored entry for feed 1,
used by the scheduling witness. -/
def wStoreSched : Store := ⟨[wFeed, wFeedB], [], [], [⟨1, "k", "t", "c", 0⟩], 3⟩

/-- Concrete fixture network for the scheduling witness: url `a` fails to
fetch, every other url yields a one-entry document. -/
def wNet : String → FetchOutcome := fun u =>
  if u == "a" then .fetchError
  else .doc ⟨some "T", [], [⟨some "e1", "l1", "t1", "c1", 7⟩]⟩

/-- `Group.add_feed` never changes the feed table. -/
theorem add_feed_feeds (s : Store) (g : Group) (f : Feed) :
    (Group.add_feed s g f).feeds = s.feeds := by
  unfold Group.add_feed; split <;> rfl

/-- `Group.add_feed` never changes the group table. -/
theorem add_feed_groups (s : Store) (g : Group) (f : Feed) :
    (Group.add_feed s g f).groups = s.groups := by
  unfold Group.add_feed; split <;> rfl

/-- C1: adding a feed whose URL is already present in the store fails with
the already-exists error, leaves the store unchanged, and performs zero
network fetches (the duplicate check runs before any fetch). -/
theorem FV_C1_duplicate_add_rejected (s : Store) (net : String → FetchOutcome)
    (url : String) (g : Option String)
    (h : (Feed.get_by_url s url).isSome = true) :
    FeedCommand.add s net url g = ⟨.errAlreadyExists, s, 0⟩ := by
  cases hfu : Feed.get_by_url s url with
  | none => rw [hfu] at h; simp at h
  | some f => simp [FeedCommand.add, hfu]

/-- C1 witness: on the concrete fixture store, re-adding the stored URL is
rejected with no store change and no fetch. -/
theorem FV_C1_witness :
    (Feed.get_by_url wStore "a").isSome = true ∧
    FeedCommand.add wStore (fun _ => .fetchError) "a" none =
      ⟨.errAlreadyExists, wStore, 0⟩ :=
  ⟨by decide,
   FV_C1_duplicate_add_rejected wStore (fun _ => .fetchError) "a" none
     (by decide)⟩

/-- C3: on a successful add, the stored feed's `link` is the first parsed
link whose value differs from the subscription URL, and when every parsed
link equals the subscription URL (or there are none) that chosen link is
the subscription URL itself. -/
theorem FV_C3_link_selection (s : Store) (net : String → FetchOutcome)
    (url : String) (gopt : Option String) (raw : RawFeed) (t : String)
    (h0 : Feed.get_by_url s url = none) (h1 : net url = .doc raw)
    (h2 : raw.title = some t) :
    (FeedCommand.add s net url gopt).store.feeds =
      s.feeds ++ [⟨s.nextFeedId, t, url,
        ((raw.links.find? (fun l => l != url)).getD url), 0⟩] ∧
    ((∀ l ∈ raw.links, l = url) →
      (raw.links.find? (fun l => l != url)).getD url = url) := by
  constructor
  · cases gopt with
    | none =>
      simp [FeedCommand.add, h0, h1, h2, Feed.insert, List.filter_head?]
    | some gname =>
      cases hg : Group.get_by_name s gname with
      | none =>
        rw [Group.get_by_name] at hg
        simp [FeedCommand.add, h0, h1, h2, Feed.insert, Group.get_by_name,
          List.filter_head?, hg]
      | some g =>
        rw [Group.get_by_name] at hg
        simp [FeedCommand.add, h0, h1, h2, Feed.insert, Group.get_by_name,
          add_feed_feeds, List.filter_head?, hg]
  · intro hall
    have hnone : raw.links.find? (fun l => l != url) = none := by
      simp only [List.find?_eq_none]
      intro x hx
      simp [hall x hx]
    simp [hnone]

/-- C3 witness: on the concrete fixture, adding URL `b` against an empty
store with document `wRaw` stores link `c` (the first link differing from
`b`), and `wRaw` restricted to all-equal links falls back to the URL. -/
theorem FV_C3_witness :
    Feed.get_by_url ⟨[], [], [], [], 0⟩ "b" = none ∧
    (FeedCommand.add ⟨[], [], [], [], 0⟩ (fun _ => .doc wRaw) "b"
        none).store.feeds =
      [] ++ [⟨0, "T", "b",
        ((wRaw.links.find? (fun l => l != "b")).getD "b"), 0⟩] :=
  ⟨by decide,
   (FV_C3_link_selection ⟨[], [], [], [], 0⟩ (fun _ => .doc wRaw) "b" none
     wRaw "T" (by decide) rfl rfl).1⟩

/-- C9: when a group name is supplied and the group lookup fails, the add
operation returns the group-not-found error, but the feed has already been
inserted and remains in the store on that error path. -/
theorem FV_C9_group_failure_keeps_feed (s : Store)
    (net : String → FetchOutcome) (url gname : String) (raw : RawFeed)
    (t : String)
    (h0 : Feed.get_by_url s url = none) (h1 : net url = .doc raw)
    (h2 : raw.title = some t) (h3 : Group.get_by_name s gname = none) :
    (FeedCommand.add s net url (some gname)).result = .errGroupNotFound ∧
    (FeedCommand.add s net url (some gname)).store.feeds =
      s.feeds ++ [⟨s.nextFeedId, t, url,
        ((raw.links.filter (fun l => l != url)).head?).getD url, 0⟩] := by
  rw [Group.get_by_name] at h3
  constructor
  · simp [FeedCommand.add, h0, h1, h2, h3, Feed.insert, Group.get_by_name]
  · simp [FeedCommand.add, h0, h1, h2, h3, Feed.insert, Group.get_by_name,
      List.filter_head?]

/-- C9 witness: adding URL `b` with an unknown group name fails with
group-not-found, yet the new feed is persisted. -/
theorem FV_C9_witness :
    (FeedCommand.add ⟨[], [], [], [], 0⟩ (fun _ => .doc wRaw) "b"
        (some "g")).result = .errGroupNotFound ∧
    (FeedCommand.add ⟨[], [], [], [], 0⟩ (fun _ => .doc wRaw) "b"
        (some "g")).store.feeds =
      [] ++ [⟨0, "T", "b",
        ((wRaw.links.filter (fun l => l != "b")).head?).getD "b", 0⟩] :=
  FV_C9_group_failure_keeps_feed ⟨[], [], [], [], 0⟩ (fun _ => .doc wRaw)
    "b" "g" wRaw "T" (by decide) rfl rfl (by decide)

/-- C10: when the fetched document parses but carries no title, the add
operation fails with the no-title error and inserts nothing — the store is
returned unchanged. -/
theorem FV_C10_no_title_rejected (s : Store) (net : String → FetchOutcome)
    (url : String) (g : Option String) (raw : RawFeed)
    (h0 : Feed.get_by_url s url = none) (h1 : net url = .doc raw)
    (h2 : raw.title = none) :
    FeedCommand.add s net url g = ⟨.errNoTitle, s, 1⟩ := by
  simp [FeedCommand.add, h0, h1, h2]

/-- C4: deleting a stored feed succeeds and removes every feed row with its
id, while its entries and its group associations are left in the store
(orphaned, per the source TODO) and no other feed is removed. -/
theorem FV_C4_delete_feed_orphans (s : Store) (id : Nat) (f : Feed)
    (h : Feed.get s id = some f) :
    (FeedCommand.delete s id).1 = .ok ∧
    (∀ x ∈ (FeedCommand.delete s id).2.feeds, x.id ≠ id) ∧
    (∀ x ∈ s.feeds, x.id ≠ id → x ∈ (FeedCommand.delete s id).2.feeds) ∧
    (FeedCommand.delete s id).2.entries = s.entries ∧
    (FeedCommand.delete s id).2.feedGroups = s.feedGroups := by
  have hfid : f.id = id := by
    have hp := List.find?_some h
    simpa using hp
  refine ⟨by simp [FeedCommand.delete, h], ?_, ?_, ?_, ?_⟩
  · intro x hx
    simp only [FeedCommand.delete, h, Feed.deleteRow, List.mem_filter] at hx
    rcases hx with ⟨-, hx2⟩
    simp only [bne_iff_ne, ne_eq] at hx2
    rw [← hfid]
    exact hx2
  · intro x hx hxid
    simp only [FeedCommand.delete, h, Feed.deleteRow, List.mem_filter]
    refine ⟨hx, ?_⟩
    simp only [bne_iff_ne, ne_eq, hfid]
    exact hxid
  · simp [FeedCommand.delete, h, Feed.deleteRow]
  · simp [FeedCommand.delete, h, Feed.deleteRow]

/-- C4 witness: deleting feed 1 from the fixture store removes the feed and
leaves its entry and association rows in place. -/
theorem FV_C4_witness :
    Feed.get wStoreG 1 = some wFeed ∧
    ((FeedCommand.delete wStoreG 1).1 = .ok ∧
     (∀ x ∈ (FeedCommand.delete wStoreG 1).2.feeds, x.id ≠ 1) ∧
     (∀ x ∈ wStoreG.feeds, x.id ≠ 1 →
        x ∈ (FeedCommand.delete wStoreG 1).2.feeds) ∧
     (FeedCommand.delete wStoreG 1).2.entries = wStoreG.entries ∧
     (FeedCommand.delete wStoreG 1).2.feedGroups = wStoreG.feedGroups) :=
  ⟨by decide, FV_C4_delete_feed_orphans wStoreG 1 wFeed (by decide)⟩

/-- C5: deleting a group that still has associated feeds succeeds after
setting the warning flag, removes the group row and all of its
associations (and only those), and leaves the feed and entry tables
unchanged. -/
theorem FV_C5_delete_nonempty_group (s : Store) (gname : String) (g : Group)
    (hg : Group.get_by_name s gname = some g)
    (hne : FeedGroup.get_by_group s g.id ≠ []) :
    (GroupCommand.delete s gname).result = .ok ∧
    (GroupCommand.delete s gname).warned = true ∧
    (∀ x ∈ (GroupCommand.delete s gname).store.groups, x.id ≠ g.id) ∧
    (∀ p ∈ (GroupCommand.delete s gname).store.feedGroups, p.2 ≠ g.id) ∧
    (∀ p ∈ s.feedGroups, p.2 ≠ g.id →
      p ∈ (GroupCommand.delete s gname).store.feedGroups) ∧
    (GroupCommand.delete s gname).store.feeds = s.feeds ∧
    (GroupCommand.delete s gname).store.entries = s.entries := by
  refine ⟨by simp [GroupCommand.delete, hg], ?_, ?_, ?_, ?_, ?_, ?_⟩
  · simp only [GroupCommand.delete, hg, bne_iff_ne, ne_eq]
    simpa using hne
  · intro x hx
    simp only [GroupCommand.delete, hg, Group.delete, FeedGroup.delete_by_group,
      List.mem_filter, bne_iff_ne, ne_eq] at hx
    exact hx.2
  · intro p hp
    simp only [GroupCommand.delete, hg, Group.delete, FeedGroup.delete_by_group,
      List.mem_filter, bne_iff_ne, ne_eq] at hp
    exact hp.2
  · intro p hp hpg
    simp only [GroupCommand.delete, hg, Group.delete, FeedGroup.delete_by_group,
      List.mem_filter, bne_iff_ne, ne_eq]
    exact ⟨hp, hpg⟩
  · simp [GroupCommand.delete, hg, Group.delete, FeedGroup.delete_by_group]
  · simp [GroupCommand.delete, hg, Group.delete, FeedGroup.delete_by_group]

/-- C5 witness: deleting group `g`, which still holds feed 1, succeeds with
the warning, removes the association, and keeps the feed and its entry. -/
theorem FV_C5_witness :
    Group.get_by_name wStoreG "g" = some wGroup ∧
    ((GroupCommand.delete wStoreG "g").result = .ok ∧
     (GroupCommand.delete wStoreG "g").warned = true ∧
     (∀ x ∈ (GroupCommand.delete wStoreG "g").store.groups,
        x.id ≠ wGroup.id) ∧
     (∀ p ∈ (GroupCommand.delete wStoreG "g").store.feedGroups,
        p.2 ≠ wGroup.id) ∧
     (∀ p ∈ wStoreG.feedGroups, p.2 ≠ wGroup.id →
        p ∈ (GroupCommand.delete wStoreG "g").store.feedGroups) ∧
     (GroupCommand.delete wStoreG "g").store.feeds = wStoreG.feeds ∧
     (GroupCommand.delete wStoreG "g").store.entries = wStoreG.entries) :=
  ⟨by decide,
   FV_C5_delete_nonempty_group wStoreG "g" wGroup (by decide) (by decide)⟩

/-- C6: adding the same feed to the same group twice leaves exactly one
association link between them — the second add does not create a
duplicate. -/
theorem FV_C6_add_feed_idempotent (s : Store) (fid : Nat) (gname : String)
    (g : Group) (f : Feed)
    (hg : Group.get_by_name s gname = some g) (hf : Feed.get s fid = some f)
    (h0 : (fid, g.id) ∉ s.feedGroups) :
    ((GroupCommand.add_feed
        ((GroupCommand.add_feed s fid gname).2) fid gname).2).feedGroups.count
      (fid, g.id) = 1 := by
  have hfid : f.id = fid := by
    have hp := List.find?_some hf
    simpa using hp
  have hstep1 : (GroupCommand.add_feed s fid gname).2 =
      { s with feedGroups := s.feedGroups ++ [(fid, g.id)] } := by
    simp only [GroupCommand.add_feed, hg, hf, Group.add_feed, hfid]
    rw [if_neg h0]
  have hg2 : Group.get_by_name (GroupCommand.add_feed s fid gname).2 gname
      = some g := by
    rw [hstep1]; exact hg
  have hf2 : Feed.get (GroupCommand.add_feed s fid gname).2 fid = some f := by
    rw [hstep1]; exact hf
  have hmem : (fid, g.id) ∈
      ((GroupCommand.add_feed s fid gname).2).feedGroups := by
    rw [hstep1]; simp
  have hstep2 : ∀ s' : Store, Group.get_by_name s' gname = some g →
      Feed.get s' fid = some f → (fid, g.id) ∈ s'.feedGroups →
      (GroupCommand.add_feed s' fid gname).2 = s' := by
    intro s' h1 h2 h3
    simp only [GroupCommand.add_feed, h1, h2, Group.add_feed, hfid]
    rw [if_pos h3]
  rw [hstep2 _ hg2 hf2 hmem, hstep1]
  have hcount0 : s.feedGroups.count (fid, g.id) = 0 :=
    List.count_eq_zero.mpr h0
  simp [List.count_append, hcount0]

/-- C6 witness: adding feed 1 to group `g` twice on the fixture store with
no prior link leaves exactly one `(1, 1)` association. -/
theorem FV_C6_witness :
    (1, wGroup.id) ∉ wStoreNoLink.feedGroups ∧
    ((GroupCommand.add_feed
        ((GroupCommand.add_feed wStoreNoLink 1 "g").2) 1
        "g").2).feedGroups.count (1, wGroup.id) = 1 :=
  ⟨by decide,
   FV_C6_add_feed_idempotent wStoreNoLink 1 "g" wGroup wFeed (by decide)
     (by decide) (by decide)⟩

/-- C10 witness: adding URL `b` whose document has no title fails with the
no-title error and leaves the empty store unchanged. -/
theorem FV_C10_witness :
    Feed.get_by_url ⟨[], [], [], [], 0⟩ "b" = none ∧
    FeedCommand.add ⟨[], [], [], [], 0⟩ (fun _ => .doc wRawNoTitle) "b"
        none = ⟨.errNoTitle, ⟨[], [], [], [], 0⟩, 1⟩ :=
  ⟨by decide,
   FV_C10_no_title_rejected ⟨[], [], [], [], 0⟩ (fun _ => .doc wRawNoTitle)
     "b" none wRawNoTitle (by decide) rfl rfl⟩

/-- A stored `(feedId, externalId)` pair stays stored across a batch
insert. -/
theorem entryStored_insertNewEntries (s : Store) (fid : Nat) (k : String)
    (rs : List RawEntry) (h : entryStored s fid k = true) :
    entryStored (insertNewEntries s fid rs).1 fid k = true := by
  induction rs generalizing s with
  | nil => exact h
  | cons q qs ih =>
    simp only [insertNewEntries]
    split
    · exact ih s h
    · apply ih
      simp only [entryStored] at h ⊢
      simp [List.any_append, h]

/-- After the batch insert, every parsed entry's key is stored. -/
theorem insertNewEntries_stores_all (s : Store) (fid : Nat)
    (rs : List RawEntry) :
    ∀ r ∈ rs, entryStored (insertNewEntries s fid rs).1 fid r.key = true := by
  induction rs generalizing s with
  | nil => intro r hr; simp at hr
  | cons q qs ih =>
    intro r hr
    simp only [insertNewEntries]
    rcases List.mem_cons.mp hr with rfl | hr2
    · split
      case isTrue hst => exact entryStored_insertNewEntries _ _ _ _ hst
      case isFalse hst =>
        apply entryStored_insertNewEntries
        simp [entryStored, List.any_append, mkEntry]
    · split
      · exact ih s r hr2
      · exact ih _ r hr2

/-- The batch insert is a no-op (and reports zero new entries) when every
parsed entry's key is already stored. -/
theorem insertNewEntries_all_stored_eq (s : Store) (fid : Nat)
    (rs : List RawEntry)
    (h : ∀ r ∈ rs, entryStored s fid r.key = true) :
    insertNewEntries s fid rs = (s, 0) := by
  induction rs with
  | nil => rfl
  | cons q qs ih =>
    simp only [insertNewEntries]
    rw [if_pos (h q (by simp))]
    exact ih (fun r hr => h r (by simp [hr]))

/-- C2: re-crawling the same feed against an unchanged parsed document
stores zero new entries and leaves the entry table exactly as the first
crawl left it — the crawl is idempotent with respect to stored entries. -/
theorem FV_C2_crawl_idempotent (s : Store) (now now2 : Nat) (f : Feed)
    (raw : RawFeed) :
    (crawlFeed (crawlFeed s now f (.doc raw)).store now2 f
        (.doc raw)).newCount = 0 ∧
    (crawlFeed (crawlFeed s now f (.doc raw)).store now2 f
        (.doc raw)).store.entries =
      (crawlFeed s now f (.doc raw)).store.entries := by
  have hall : ∀ r ∈ raw.entries,
      entryStored (crawlFeed s now f (.doc raw)).store f.id r.key = true := by
    intro r hr
    exact insertNewEntries_stores_all s f.id raw.entries r hr
  have hnoop := insertNewEntries_all_stored_eq
    (crawlFeed s now f (.doc raw)).store f.id raw.entries hall
  constructor
  · show (insertNewEntries (crawlFeed s now f (.doc raw)).store f.id
      raw.entries).2 = 0
    rw [hnoop]
  · show (touchFeed (insertNewEntries (crawlFeed s now f (.doc raw)).store
      f.id raw.entries).1 f.id now2).entries = _
    rw [hnoop]
    exact rfl

/-- The batch insert never changes the feed table. -/
theorem insertNewEntries_feeds (s : Store) (fid : Nat) (rs : List RawEntry) :
    (insertNewEntries s fid rs).1.feeds = s.feeds := by
  induction rs generalizing s with
  | nil => rfl
  | cons q qs ih =>
    simp only [insertNewEntries]
    split
    · exact ih s
    · exact ih _

/-- One crawl-pipeline invocation maps the feed table pointwise: the
crawled feed's bookkeeping is set to `now`, everything else is kept. -/
theorem crawlFeed_feeds (s : Store) (now : Nat) (f : Feed)
    (o : FetchOutcome) :
    (crawlFeed s now f o).store.feeds =
      s.feeds.map
        (fun x => if x.id == f.id then { x with lastCrawl := now } else x) := by
  cases o with
  | fetchError => rfl
  | parseError => rfl
  | doc raw => simp [crawlFeed, touchFeed, insertNewEntries_feeds]

/-- The batch insert for one feed does not change the entries stored for a
different feed id. -/
theorem insertNewEntries_filter_other (s : Store) (fid : Nat)
    (rs : List RawEntry) (k : Nat) (hk : k ≠ fid) :
    ((insertNewEntries s fid rs).1.entries.filter
        (fun e => e.feedId == k)) =
      s.entries.filter (fun e => e.feedId == k) := by
  induction rs generalizing s with
  | nil => rfl
  | cons q qs ih =>
    simp only [insertNewEntries]
    split
    · exact ih s
    · rw [ih]
      have hb : ((mkEntry fid q).feedId == k) = false := by
        simp [mkEntry, Ne.symm hk]
      simp [List.filter_append, hb]

/-- One crawl-pipeline invocation does not change the entries stored for a
different feed id. -/
theorem crawlFeed_filter_other (s : Store) (now : Nat) (f : Feed)
    (o : FetchOutcome) (k : Nat) (hk : k ≠ f.id) :
    ((crawlFeed s now f o).store.entries.filter (fun e => e.feedId == k)) =
      s.entries.filter (fun e => e.feedId == k) := by
  cases o with
  | fetchError => rfl
  | parseError => rfl
  | doc raw => exact insertNewEntries_filter_other s f.id raw.entries k hk

/-- Closed form for the feed table after folding the crawl step over a
list of feeds: each feed whose id occurs in the list has its bookkeeping
set to `now`; the rest are untouched. -/
theorem foldCrawl_feeds (now : Nat) (net : String → FetchOutcome)
    (l : List Feed) (acc : Store) :
    (l.foldl (fun a f => (crawlFeed a now f (net f.url)).store) acc).feeds =
      acc.feeds.map
        (fun x => if l.any (fun g => x.id == g.id)
          then { x with lastCrawl := now } else x) := by
  induction l generalizing acc with
  | nil => simp
  | cons g l ih =>
    simp only [List.foldl_cons]
    rw [ih, crawlFeed_feeds, List.map_map]
    apply List.map_congr_left
    intro x hx
    by_cases hxg : x.id = g.id
    · simp [Function.comp, hxg]
    · simp [Function.comp, hxg]

/-- Folding the crawl step over a list of feeds does not change the
entries stored for a feed id whose every occurrence in the list fails to
fetch. -/
theorem foldCrawl_filter (now : Nat) (net : String → FetchOutcome)
    (fid : Nat) (l : List Feed) (acc : Store)
    (h : ∀ g ∈ l, g.id = fid → net g.url = .fetchError) :
    ((l.foldl (fun a f => (crawlFeed a now f (net f.url)).store)
        acc).entries.filter (fun e => e.feedId == fid)) =
      acc.entries.filter (fun e => e.feedId == fid) := by
  induction l generalizing acc with
  | nil => rfl
  | cons g l ih =>
    simp only [List.foldl_cons]
    rw [ih _ (fun x hx => h x (List.mem_cons_of_mem _ hx))]
    by_cases hgid : g.id = fid
    · rw [h g (by simp) hgid]; exact rfl
    · exact crawlFeed_filter_other acc now g (net g.url) fid
        (fun e => hgid e.symm)

/-- C7: in a scheduling pass, a due feed whose fetch fails still has its
last-crawl bookkeeping set to the attempt time, its stored entries are
unchanged, and every other due feed is still crawled (its bookkeeping also
advances to the attempt time). -/
theorem FV_C7_fetch_failure_pass (s : Store) (now interval : Nat)
    (net : String → FetchOutcome) (f : Feed)
    (hmem : f ∈ s.feeds) (hdue : isDue now interval f = true)
    (hfail : net f.url = .fetchError)
    (hnodup : (s.feeds.map (fun x => x.id)).Nodup) :
    (∀ x ∈ (schedulePass s now interval net).feeds, x.id = f.id →
      x.lastCrawl = now) ∧
    ((schedulePass s now interval net).entries.filter
        (fun e => e.feedId == f.id)) =
      s.entries.filter (fun e => e.feedId == f.id) ∧
    (∀ g ∈ s.feeds, isDue now interval g = true →
      ∀ x ∈ (schedulePass s now interval net).feeds, x.id = g.id →
        x.lastCrawl = now) := by
  have key : ∀ g ∈ s.feeds, isDue now interval g = true →
      ∀ x ∈ (schedulePass s now interval net).feeds, x.id = g.id →
        x.lastCrawl = now := by
    intro g hgmem hgdue x hx hxid
    simp only [schedulePass, foldCrawl_feeds] at hx
    rcases List.mem_map.mp hx with ⟨y, hy, rfl⟩
    by_cases hcond :
        ((s.feeds.filter (isDue now interval)).any
          (fun gg => y.id == gg.id)) = true
    · simp [hcond]
    · exfalso
      apply hcond
      refine List.any_eq_true.mpr
        ⟨g, List.mem_filter.mpr ⟨hgmem, hgdue⟩, ?_⟩
      have hyid : y.id = g.id := by simpa [hcond] using hxid
      simp [hyid]
  have hforall : ∀ gg ∈ s.feeds.filter (isDue now interval),
      gg.id = f.id → net gg.url = .fetchError := by
    intro gg hggmem hggid
    have hmem2 := (List.mem_filter.mp hggmem).1
    have heq : gg = f := List.inj_on_of_nodup_map hnodup hmem2 hmem hggid
    rw [heq]; exact hfail
  have hentries := foldCrawl_filter now net f.id
    (s.feeds.filter (isDue now interval)) s hforall
  exact ⟨fun x hx hxid => key f hmem hdue x hx hxid, hentries, key⟩

/-- C7 witness: with feed 1 (url `a`) failing to fetch and feed 2 (url `b`)
succeeding, one scheduling pass at time 10 advances both feeds'
bookkeeping and stores nothing new for feed 1. -/
theorem FV_C7_witness :
    (wFeed ∈ wStoreSched.feeds ∧ isDue 10 5 wFeed = true ∧
     wNet wFeed.url = .fetchError ∧
     (wStoreSched.feeds.map (fun x => x.id)).Nodup) ∧
    ((∀ x ∈ (schedulePass wStoreSched 10 5 wNet).feeds, x.id = wFeed.id →
        x.lastCrawl = 10) ∧
     ((schedulePass wStoreSched 10 5 wNet).entries.filter
        (fun e => e.feedId == wFeed.id)) =
       wStoreSched.entries.filter (fun e => e.feedId == wFeed.id) ∧
     (∀ g ∈ wStoreSched.feeds, isDue 10 5 g = true →
       ∀ x ∈ (schedulePass wStoreSched 10 5 wNet).feeds, x.id = g.id →
         x.lastCrawl = 10)) :=
  ⟨⟨by decide, by decide, by decide, by decide⟩,
   FV_C7_fetch_failure_pass wStoreSched 10 5 wNet wFeed (by decide)
     (by decide) (by decide) (by decide)⟩

/-- C8: the server operation has both the web listener's and the crawler
run-loop's results in hand (the two are joined) and succeeds exactly when
both succeeded; a failure of either one is surfaced as the returned error,
never swallowed. -/
theorem FV_C8_server_surfaces_both (ε : Type) (web crawl : Except ε Unit) :
    (Options.server web crawl = Except.ok () ↔
      web = Except.ok () ∧ crawl = Except.ok ()) ∧
    (∀ e, web = Except.error e →
      Options.server web crawl = Except.error e) ∧
    (∀ e, web = Except.ok () → crawl = Except.error e →
      Options.server web crawl = Except.error e) := by
  cases web with
  | error e => simp [Options.server]
  | ok u =>
    cases u
    cases crawl with
    | error e => simp [Options.server]
    | ok v => cases v; simp [Options.server]

/-- C8 witness: a web-listener failure and a crawler failure are each
surfaced by the server operation on concrete outcomes. -/
theorem FV_C8_witness :
    Options.server (Except.error "w") (Except.ok ()) =
      (Except.error "w" : Except String Unit) ∧
    Options.server (Except.ok ()) (Except.error "c") =
      (Except.error "c" : Except String Unit) :=
  ⟨(FV_C8_server_surfaces_both String (Except.error "w")
      (Except.ok ())).2.1 "w" rfl,
   (FV_C8_server_surfaces_both String (Except.ok ())
      (Except.error "c")).2.2 "c" rfl rfl⟩

end Lares
